import Mathlib

/-!
Verification development for the job-posting analysis pipeline of this
repository.  The two source revisions of the serverless function
(`exports.handler`, `fetchJobDescription`, `analyzeJobSkills`) are shallowly
embedded below; the suffix `V1` refers to the earlier revision and `V2` to the
later one (the revision that adds the request timeout, extra logging, and the
inner fetch try/catch).

Modelling conventions:
- JavaScript strings are modelled as `List Char`.
- JSON values are modelled by the mutual inductive type `Json`; JSON numbers
  are modelled as integers (fractional and exponent literals, and `\u` string
  escapes, are outside the model — no claim exercises them).
- `JSON.parse` is modelled by the executable recursive-descent parser
  `jsonParse`; `JSON.stringify` is applied by the runtime at the HTTP
  boundary and responses are therefore modelled with their body as a `Json`
  value.
- The two outbound network effects (the axios GET and the OpenAI chat call)
  are modelled as oracle outcomes passed to the handler as data, and the
  handler additionally returns the trace of outbound calls it performs.
- Messages produced by the JavaScript engine itself (syntax errors, type
  errors) are modelled by fixed placeholder strings; no claim inspects their
  content.
-/

mutual

inductive Json where
  | null : Json
  | bool : Bool → Json
  | num : Int → Json
  | str : List Char → Json
  | arr : JsonArr → Json
  | obj : JsonObj → Json
deriving DecidableEq

inductive JsonArr where
  | nil : JsonArr
  | cons : Json → JsonArr → JsonArr
deriving DecidableEq

inductive JsonObj where
  | nil : JsonObj
  | cons : List Char → Json → JsonObj → JsonObj
deriving DecidableEq

end

/-- Decidable equality for `Except`, so that concrete runs of the embedded
fallible functions can be checked by evaluation. -/
instance exceptDecEq {α β : Type} [DecidableEq α] [DecidableEq β] :
    DecidableEq (Except α β) := fun a b =>
  match a, b with
  | Except.ok x, Except.ok y =>
    if h : x = y then Decidable.isTrue (congrArg Except.ok h)
    else Decidable.isFalse (fun hc => h (Except.ok.inj hc))
  | Except.error x, Except.error y =>
    if h : x = y then Decidable.isTrue (congrArg Except.error h)
    else Decidable.isFalse (fun hc => h (Except.error.inj hc))
  | Except.ok _, Except.error _ =>
    Decidable.isFalse (fun hc => Except.noConfusion hc)
  | Except.error _, Except.ok _ =>
    Decidable.isFalse (fun hc => Except.noConfusion hc)

/-- JavaScript truthiness of a JSON value (`if (v)`): `null`, `false`, `0`
and the empty string are falsy, every other JSON value is truthy. -/
def jsTruthy : Json → Bool
  | Json.null => false
  | Json.bool b => b
  | Json.num n => n != 0
  | Json.str s => !s.isEmpty
  | Json.arr _ => true
  | Json.obj _ => true

/-- Property lookup on a parsed-JSON object, last binding wins (as with
duplicate keys in `JSON.parse`). -/
def JsonObj.lookupLast : JsonObj → List Char → Option Json
  | JsonObj.nil, _ => none
  | JsonObj.cons k v tl, key =>
    match JsonObj.lookupLast tl key with
    | some r => some r
    | none => if k = key then some v else none

/-- JavaScript property access `v[k]` on a parsed JSON value: field lookup on
objects, `undefined` (`none`) on every non-object (access on `null` throws and
is handled by the caller). -/
def jsGetProp (v : Json) (k : List Char) : Option Json :=
  match v with
  | Json.obj o => o.lookupLast k
  | _ => none

/-- Keys of a JSON object, in order. -/
def JsonObj.keys : JsonObj → List (List Char)
  | JsonObj.nil => []
  | JsonObj.cons k _ tl => k :: JsonObj.keys tl

/-- Key list of a JSON value (empty for non-objects). -/
def objKeys : Json → List (List Char)
  | Json.obj o => o.keys
  | _ => []

/-- Whether a JSON value is an object. -/
def Json.isObjB : Json → Bool
  | Json.obj _ => true
  | _ => false

/-- Whitespace recognised by JavaScript `String.prototype.trim` (the ASCII
part; exotic Unicode spaces are outside the model). -/
def jsTrimWsChar (c : Char) : Bool :=
  c = ' ' || c = '\t' || c = '\n' || c = '\r' || c = '\x0b' || c = '\x0c'

/-- Model of `s.trim()` on a JavaScript string. -/
def trimChars (cs : List Char) : List Char :=
  ((cs.dropWhile jsTrimWsChar).reverse.dropWhile jsTrimWsChar).reverse

/-- Whitespace permitted between JSON tokens. -/
def jsonWsChar (c : Char) : Bool :=
  c = ' ' || c = '\t' || c = '\n' || c = '\r'

/-- Skip inter-token JSON whitespace. -/
def skipWs (cs : List Char) : List Char :=
  cs.dropWhile jsonWsChar

/-- Decode one JSON string escape character (`\u` escapes are outside the
model). -/
def parseEsc : Char → Option Char
  | '\"' => some '\"'
  | '\\' => some '\\'
  | '/' => some '/'
  | 'n' => some '\n'
  | 't' => some '\t'
  | 'r' => some '\r'
  | 'b' => some '\x08'
  | 'f' => some '\x0c'
  | _ => none

/-- Parse the body of a JSON string after the opening quote; returns the
decoded characters and the input remaining after the closing quote. -/
def parseStringBody : List Char → Option (List Char × List Char)
  | [] => none
  | c :: rest =>
    if c = '\"' then some ([], rest)
    else if c = '\\' then
      match rest with
      | [] => none
      | e :: rest2 =>
        match parseEsc e with
        | none => none
        | some d =>
          match parseStringBody rest2 with
          | none => none
          | some (s, r) => some (d :: s, r)
    else
      match parseStringBody rest with
      | none => none
      | some (s, r) => some (c :: s, r)

/-- Digits to a natural number. -/
def digitsToNat (ds : List Char) : Nat :=
  ds.foldl (fun a c => a * 10 + (c.toNat - '0'.toNat)) 0

/-- Parse an unsigned JSON integer literal (no leading zeros). -/
def parseNumCore (cs : List Char) : Option (Nat × List Char) :=
  let ds := cs.takeWhile Char.isDigit
  let rest := cs.drop ds.length
  match ds with
  | [] => none
  | [d] => some (digitsToNat [d], rest)
  | d :: _ :: _ => if d = '0' then none else some (digitsToNat ds, rest)

/-- Parse a JSON integer literal with optional sign. -/
def parseNum (cs : List Char) : Option (Int × List Char) :=
  match cs with
  | '-' :: rest => (parseNumCore rest).map (fun p => (-(p.1 : Int), p.2))
  | _ => (parseNumCore cs).map (fun p => ((p.1 : Int), p.2))

mutual

/-- Fuel-based recursive-descent parser for one JSON value; returns the value
and the unconsumed remainder. -/
def parseVal : Nat → List Char → Option (Json × List Char)
  | 0, _ => none
  | Nat.succ fuel, cs =>
    match skipWs cs with
    | 'n' :: 'u' :: 'l' :: 'l' :: rest => some (Json.null, rest)
    | 't' :: 'r' :: 'u' :: 'e' :: rest => some (Json.bool true, rest)
    | 'f' :: 'a' :: 'l' :: 's' :: 'e' :: rest => some (Json.bool false, rest)
    | '\"' :: rest =>
      match parseStringBody rest with
      | none => none
      | some (s, r) => some (Json.str s, r)
    | '[' :: rest =>
      match skipWs rest with
      | ']' :: r2 => some (Json.arr JsonArr.nil, r2)
      | r2 =>
        match parseArrItems fuel r2 with
        | none => none
        | some (a, r3) => some (Json.arr a, r3)
    | '\x7b' :: rest =>
      match skipWs rest with
      | '\x7d' :: r2 => some (Json.obj JsonObj.nil, r2)
      | r2 =>
        match parseObjItems fuel r2 with
        | none => none
        | some (o, r3) => some (Json.obj o, r3)
    | rest =>
      match parseNum rest with
      | none => none
      | some (n, r) => some (Json.num n, r)

/-- Parse the comma-separated items of a JSON array up to the closing
bracket. -/
def parseArrItems : Nat → List Char → Option (JsonArr × List Char)
  | 0, _ => none
  | Nat.succ fuel, cs =>
    match parseVal fuel cs with
    | none => none
    | some (v, r) =>
      match skipWs r with
      | ',' :: r2 =>
        match parseArrItems fuel r2 with
        | none => none
        | some (a, r3) => some (JsonArr.cons v a, r3)
      | ']' :: r2 => some (JsonArr.cons v JsonArr.nil, r2)
      | _ => none

/-- Parse the comma-separated members of a JSON object up to the closing
brace. -/
def parseObjItems : Nat → List Char → Option (JsonObj × List Char)
  | 0, _ => none
  | Nat.succ fuel, cs =>
    match skipWs cs with
    | '\"' :: r =>
      match parseStringBody r with
      | none => none
      | some (k, r1) =>
        match skipWs r1 with
        | ':' :: r2 =>
          match parseVal fuel r2 with
          | none => none
          | some (v, r3) =>
            match skipWs r3 with
            | ',' :: r4 =>
              match parseObjItems fuel r4 with
              | none => none
              | some (o, r5) => some (JsonObj.cons k v o, r5)
            | '\x7d' :: r4 => some (JsonObj.cons k v JsonObj.nil, r4)
            | _ => none
        | _ => none
    | _ => none

end

/-- Model of `JSON.parse`: parse a complete JSON document, rejecting
unconsumed non-whitespace trailing input; `none` models the thrown
`SyntaxError`. -/
def jsonParse (cs : List Char) : Option Json :=
  match parseVal (cs.length + 1) cs with
  | some (v, rest) => if (skipWs rest).isEmpty then some v else none
  | none => none

/-- Key constant: the field name string used by the code. -/
def atTypeKey : List Char := "@type".data

/-- Key constant for the `description` field. -/
def descriptionKey : List Char := "description".data

/-- Key constant for the `url` field. -/
def urlKey : List Char := "url".data

/-- Key constant for the `raw_output` fallback field. -/
def rawOutputKey : List Char := "raw_output".data

/-- Key constant for the `error` field of error bodies. -/
def errorKey : List Char := "error".data

/-- Key constant for the `details` field of error bodies. -/
def detailsKey : List Char := "details".data

/-- FallbackResult object built by `analyzeJobSkills`: `\x7b raw_output: c \x7d`. -/
def rawOutputObj (c : List Char) : Json :=
  Json.obj (JsonObj.cons rawOutputKey (Json.str c) JsonObj.nil)

/-- Model of `content.match` of the brace regex used by `analyzeJobSkills`:
the regex is greedy, so a match exists exactly when some `\x7b` is followed by a
later `\x7d`, and the matched substring runs from the first `\x7b` of the text to
the last `\x7d` of the text. -/
def greedyBraceMatch (cs : List Char) : Option (List Char) :=
  let pre := cs.takeWhile (fun c => c ≠ '\x7b')
  let rest := cs.drop pre.length
  match rest with
  | [] => none
  | _ :: _ =>
    let rrev := rest.reverse
    let junk := rrev.takeWhile (fun c => c ≠ '\x7d')
    let core := rrev.drop junk.length
    match core with
    | [] => none
    | _ :: _ => some core.reverse

/-- Staged parse fallback of `analyzeJobSkills` applied to the (already
trimmed) model response content: direct `JSON.parse`, then `JSON.parse` of the
greedy brace-regex match, then the `raw_output` fallback object. -/
def normalizeContent (content : List Char) : Json :=
  match jsonParse content with
  | some v => v
  | none =>
    match greedyBraceMatch content with
    | some m =>
      match jsonParse m with
      | some v => v
      | none => rawOutputObj content
    | none => rawOutputObj content

/-- Deterministic part of `analyzeJobSkills` given the raw model response
text: the code first trims the content, then runs the staged parse
fallback. Identical in both source revisions. -/
def analyzeJobSkillsPure (raw : List Char) : Json :=
  normalizeContent (trimChars raw)

/-- Modelled from the spec: the first top-level brace-delimited substring of a
text, found by scanning to the first opening brace and taking characters until
the brace nesting depth returns to zero (the reading of the search notion of the spec in which braces are balanced; string contents are not treated
specially). -/
def specBraceScan : Nat → List Char → List Char → Option (List Char)
  | _, _, [] => none
  | depth, acc, c :: rest =>
    if c = '\x7b' then specBraceScan (depth + 1) (c :: acc) rest
    else if c = '\x7d' then
      if depth = 1 then some (c :: acc).reverse
      else specBraceScan (depth - 1) (c :: acc) rest
    else specBraceScan depth (c :: acc) rest

/-- Modelled from the spec: the first top-level brace-delimited substring of
the response text. -/
def specFirstBraceSubstring (cs : List Char) : Option (List Char) :=
  specBraceScan 0 [] (cs.dropWhile (fun c => c ≠ '\x7b'))

/-- Modelled from the spec: the weakest reading of "a StructuredSkills-shaped
object" — any JSON object (all StructuredSkills fields are optional).  Used
only to state claim falsity; a value failing this weakest reading fails every
stronger reading of the shape. -/
def specStructuredSkillsShaped (v : Json) : Bool :=
  v.isObjB

/-- Whether a JSON value is a FallbackResult `\x7b raw_output: string \x7d`. -/
def isFallbackResult : Json → Bool
  | Json.obj (JsonObj.cons k (Json.str _) JsonObj.nil) => k = rawOutputKey
  | _ => false

/-- Shallow model of the document interface the extraction code consumes via
cheerio: the contents of the `application/ld+json` script tags in document
order, the `og:description` meta content attribute, the combined text of the
elements matching a CSS selector (`none` when no element matches), and the
body text. -/
structure Doc where
  ldScripts : List (List Char)
  ogDescription : Option (List Char)
  selector : List Char → Option (List Char)
  bodyText : List Char

/-- One iteration of the `.each` loop over `application/ld+json` scripts: the
script hits when its content parses as JSON to a value whose `@type` property
is (strictly equal to) the string `JobPosting` and whose `description`
property is truthy; the result is that `description` value.  A parse error,
and the property-access `TypeError` on a `null` value, are caught inside the
loop body and the iteration simply produces nothing. -/
def ldScriptHit (s : List Char) : Option Json :=
  match jsonParse s with
  | none => none
  | some Json.null => none
  | some d =>
    match jsGetProp d atTypeKey with
    | some (Json.str t) =>
      if t = "JobPosting".data then
        match jsGetProp d descriptionKey with
        | some dv => if jsTruthy dv then some dv else none
        | none => none
      else none
    | _ => none

/-- The `.each` loop over `application/ld+json` scripts with its early break:
the `description` value of the first script that hits. -/
def ldFind : List (List Char) → Option Json
  | [] => none
  | s :: rest =>
    match ldScriptHit s with
    | some dv => some dv
    | none => ldFind rest

/-- The fixed ordered CSS selector list of `fetchJobDescription`. -/
def selectors : List (List Char) :=
  [".job-description".data, "#job-description".data, ".description".data,
   "[data-automation=\"jobDescription\"]".data, ".job-details".data]

/-- The selector loop of `fetchJobDescription`: the text of the first selector
in the fixed list that matches at least one element (the loop breaks there
even when that text is empty). -/
def selScan (doc : Doc) : Option (List Char) :=
  selectors.findSome? (fun s => doc.selector s)

/-- Placeholder for the engine `TypeError` message raised by
`jobDescription.trim()` when the JSON-LD description is a truthy non-string. -/
def trimTypeErrorMsg : List Char :=
  "jobDescription.trim is not a function".data

/-- Extraction chain of `fetchJobDescription` (identical in both revisions)
applied to a successfully fetched and parsed document: JSON-LD, then the
`og:description` meta content (skipped when absent or empty), then the first
matching selector text (body fallback when that text is empty), then the
body text; the result is trimmed.  A truthy non-string JSON-LD description
makes the final `.trim()` call throw a `TypeError`. -/
def extractFromDoc (doc : Doc) : Except (List Char) (List Char) :=
  match ldFind doc.ldScripts with
  | some (Json.str d) => Except.ok (trimChars d)
  | some _ => Except.error trimTypeErrorMsg
  | none =>
    let meta := match doc.ogDescription with
      | some m => m
      | none => []
    if !meta.isEmpty then Except.ok (trimChars meta)
    else
      match selScan doc with
      | some t =>
        if !t.isEmpty then Except.ok (trimChars t)
        else Except.ok (trimChars doc.bodyText)
      | none => Except.ok (trimChars doc.bodyText)

/-- Modelled from the spec: strategy 1 as a pure function — the JSON-LD
description text (empty when absent; the spec-side chain presumes a string
description). -/
def specStratLd (doc : Doc) : List Char :=
  match ldFind doc.ldScripts with
  | some (Json.str s) => s
  | _ => []

/-- Modelled from the spec: strategy 2 as a pure function — the
social-preview meta description. -/
def specStratMeta (doc : Doc) : List Char :=
  doc.ogDescription.getD []

/-- Modelled from the spec: strategy 3 as a pure function — the text of the
first matching known selector. -/
def specStratSel (doc : Doc) : List Char :=
  (selScan doc).getD []

/-- Modelled from the spec: evaluate an ordered list of strategy outputs with
early exit on the first non-empty result. -/
def specFirstNonEmptyText : List (List Char) → List Char
  | [] => []
  | t :: ts => if t.isEmpty then specFirstNonEmptyText ts else t

/-- Modelled from the spec: the ordered, short-circuiting extraction chain —
JSON-LD, meta tag, selector list, body text — each strategy tried only if the
previous produced no text. -/
def specOrderedChain (doc : Doc) : List Char :=
  specFirstNonEmptyText
    [specStratLd doc, specStratMeta doc, specStratSel doc, doc.bodyText]

/-- Configuration object passed to `axios.get`: headers plus optional
timeout in milliseconds. -/
structure AxiosConfig where
  headers : List (List Char × List Char)
  timeout : Option Nat

/-- The axios request configuration of the earlier `fetchJobDescription`
revision: one User-Agent header and no timeout field (the library default is
no timeout). -/
def axiosConfigV1 : AxiosConfig :=
  { headers :=
      [("User-Agent".data,
        "Mozilla/5.0 (Windows NT 10.0; Win64; x64) AppleWebKit/537.36 (KHTML, like Gecko) Chrome/91.0.4472.124 Safari/537.36".data)],
    timeout := none }

/-- The axios request configuration of the later `fetchJobDescription`
revision: three headers and a 10000 ms timeout. -/
def axiosConfigV2 : AxiosConfig :=
  { headers :=
      [("User-Agent".data,
        "Mozilla/5.0 (Windows NT 10.0; Win64; x64) AppleWebKit/537.36 (KHTML, like Gecko) Chrome/91.0.4472.124 Safari/537.36".data),
       ("Accept".data, "text/html,application/xhtml+xml,application/xml".data),
       ("Accept-Language".data, "en-US,en;q=0.9".data)],
    timeout := some 10000 }

/-- A thrown JavaScript error, reduced to its message. -/
structure JsError where
  message : List Char
deriving DecidableEq

/-- Incoming handler event: HTTP method and raw request body. -/
structure HEvent where
  httpMethod : List Char
  body : List Char
deriving DecidableEq

/-- An outbound external call performed by the handler: the axios GET on the
url value, or the OpenAI chat call on the extracted description. -/
inductive ExtCall where
  | fetch : Json → ExtCall
  | model : List Char → ExtCall
deriving DecidableEq

/-- Handler response: status code plus body value (the code serialises the
body with `JSON.stringify`). -/
structure HandlerResponse where
  statusCode : Nat
  body : Json
deriving DecidableEq

/-- Method string accepted by the handler. -/
def postMethod : List Char := "POST".data

/-- Message of the 405 response. -/
def methodNotAllowedMsg : List Char := "Method not allowed".data

/-- Message of the missing-url 400 response. -/
def urlRequiredMsg : List Char := "URL is required".data

/-- Message of the empty-extraction 400 response. -/
def couldNotExtractMsg : List Char :=
  "Could not extract job description from the provided URL".data

/-- Message of the generic 500 response. -/
def failedAnalyzeMsg : List Char := "Failed to analyze job posting".data

/-- Message of the V2 fetch-error 500 response. -/
def failedFetchMsg : List Char := "Failed to fetch job description".data

/-- Placeholder for the engine `SyntaxError` message of a failing
`JSON.parse(event.body)`. -/
def jsonSyntaxErrorMsg : List Char := "Unexpected token in JSON".data

/-- Placeholder for the engine `TypeError` message of destructuring `url`
out of a `null` parse result. -/
def destructureErrorMsg : List Char :=
  "Cannot destructure property url of null".data

/-- Error-body object with only an `error` field. -/
def errorBody (msg : List Char) : Json :=
  Json.obj (JsonObj.cons errorKey (Json.str msg) JsonObj.nil)

/-- Error-body object with `error` and `details` fields. -/
def errorBodyD (msg details : List Char) : Json :=
  Json.obj (JsonObj.cons errorKey (Json.str msg)
    (JsonObj.cons detailsKey (Json.str details) JsonObj.nil))

/-- V2 fetch-error body: `error`, `details` and the extra `url` field. -/
def fetchErrBodyV2 (details : List Char) (url : Json) : Json :=
  Json.obj (JsonObj.cons errorKey (Json.str failedFetchMsg)
    (JsonObj.cons detailsKey (Json.str details)
      (JsonObj.cons urlKey url JsonObj.nil)))

/-- Model of `const \x7b url \x7d = JSON.parse(event.body)`: a failing parse
throws a `SyntaxError`; destructuring a `null` parse result throws a
`TypeError`; otherwise `url` is the property value (`none` = `undefined`). -/
def readUrl (body : List Char) : Except JsError (Option Json) :=
  match jsonParse body with
  | none => Except.error ⟨jsonSyntaxErrorMsg⟩
  | some Json.null => Except.error ⟨destructureErrorMsg⟩
  | some v => Except.ok (jsGetProp v urlKey)

/-- JavaScript truthiness of a possibly-undefined value. -/
def jsTruthyOpt : Option Json → Bool
  | none => false
  | some v => jsTruthy v

/-- V1 `fetchJobDescription` given the fetch oracle outcome: any error of the
axios call, the document parse, or the extraction chain is caught and
rethrown wrapped as `Failed to fetch job description: ...`. -/
def fetchJobDescriptionV1 (fetchO : Except JsError Doc) :
    Except JsError (List Char) :=
  match (match fetchO with
         | Except.ok doc =>
           (match extractFromDoc doc with
            | Except.ok s => Except.ok s
            | Except.error m => Except.error (⟨m⟩ : JsError))
         | Except.error e => Except.error e) with
  | Except.ok s => Except.ok s
  | Except.error e =>
    Except.error ⟨"Failed to fetch job description: ".data ++ e.message⟩

/-- V2 `fetchJobDescription` given the fetch oracle outcome: errors are
logged and rethrown unchanged. -/
def fetchJobDescriptionV2 (fetchO : Except JsError Doc) :
    Except JsError (List Char) :=
  match fetchO with
  | Except.ok doc =>
    (match extractFromDoc doc with
     | Except.ok s => Except.ok s
     | Except.error m => Except.error (⟨m⟩ : JsError))
  | Except.error e => Except.error e

/-- V1 `analyzeJobSkills` given the model-call oracle outcome: a model-call
error is rethrown wrapped as `Failed to analyze job skills: ...`; a response
text is trimmed and normalised (never an error). -/
def analyzeJobSkillsV1 (modelO : Except JsError (List Char)) :
    Except JsError Json :=
  match modelO with
  | Except.ok raw => Except.ok (analyzeJobSkillsPure raw)
  | Except.error e =>
    Except.error ⟨"Failed to analyze job skills: ".data ++ e.message⟩

/-- V2 `analyzeJobSkills` given the model-call oracle outcome: a model-call
error is logged and rethrown unchanged. -/
def analyzeJobSkillsV2 (modelO : Except JsError (List Char)) :
    Except JsError Json :=
  match modelO with
  | Except.ok raw => Except.ok (analyzeJobSkillsPure raw)
  | Except.error e => Except.error e

/-- V1 `exports.handler`, with the outcomes of the two outbound calls given
as data and the trace of outbound calls returned alongside the response.
One try/catch wraps the whole body after the method check. -/
def handlerV1 (event : HEvent) (fetchO : Except JsError Doc)
    (modelO : Except JsError (List Char)) :
    HandlerResponse × List ExtCall :=
  if event.httpMethod ≠ postMethod then
    (⟨405, errorBody methodNotAllowedMsg⟩, [])
  else
    match readUrl event.body with
    | Except.error e => (⟨500, errorBodyD failedAnalyzeMsg e.message⟩, [])
    | Except.ok urlOpt =>
      if !jsTruthyOpt urlOpt then (⟨400, errorBody urlRequiredMsg⟩, [])
      else
        match urlOpt with
        | none => (⟨400, errorBody urlRequiredMsg⟩, [])
        | some url =>
          match fetchJobDescriptionV1 fetchO with
          | Except.error e =>
            (⟨500, errorBodyD failedAnalyzeMsg e.message⟩, [ExtCall.fetch url])
          | Except.ok desc =>
            if desc.isEmpty then
              (⟨400, errorBody couldNotExtractMsg⟩, [ExtCall.fetch url])
            else
              match analyzeJobSkillsV1 modelO with
              | Except.error e =>
                (⟨500, errorBodyD failedAnalyzeMsg e.message⟩,
                 [ExtCall.fetch url, ExtCall.model desc])
              | Except.ok skills =>
                (⟨200, skills⟩, [ExtCall.fetch url, ExtCall.model desc])

/-- V2 `exports.handler`: as V1, except an inner try/catch around the fetch
and the analysis returns the fetch-error 500 body carrying the extra `url`
field (it also catches model-call errors), while the outer catch handles only
the body-parse and destructuring errors. -/
def handlerV2 (event : HEvent) (fetchO : Except JsError Doc)
    (modelO : Except JsError (List Char)) :
    HandlerResponse × List ExtCall :=
  if event.httpMethod ≠ postMethod then
    (⟨405, errorBody methodNotAllowedMsg⟩, [])
  else
    match readUrl event.body with
    | Except.error e => (⟨500, errorBodyD failedAnalyzeMsg e.message⟩, [])
    | Except.ok urlOpt =>
      if !jsTruthyOpt urlOpt then (⟨400, errorBody urlRequiredMsg⟩, [])
      else
        match urlOpt with
        | none => (⟨400, errorBody urlRequiredMsg⟩, [])
        | some url =>
          match fetchJobDescriptionV2 fetchO with
          | Except.error e =>
            (⟨500, fetchErrBodyV2 e.message url⟩, [ExtCall.fetch url])
          | Except.ok desc =>
            if desc.isEmpty then
              (⟨400, errorBody couldNotExtractMsg⟩, [ExtCall.fetch url])
            else
              match analyzeJobSkillsV2 modelO with
              | Except.error e =>
                (⟨500, fetchErrBodyV2 e.message url⟩,
                 [ExtCall.fetch url, ExtCall.model desc])
              | Except.ok skills =>
                (⟨200, skills⟩, [ExtCall.fetch url, ExtCall.model desc])

/-- Response shape produced by the V1 handler: either a 200 with the
normaliser output of a successful model call as body, or an error body with
only an `error` field, or one with `error` and `details` fields. -/
def respShapeV1 (modelO : Except JsError (List Char))
    (r : HandlerResponse) : Prop :=
  (∃ raw, modelO = Except.ok raw ∧ r = ⟨200, analyzeJobSkillsPure raw⟩) ∨
  (∃ m, r.body = errorBody m) ∨ (∃ m d, r.body = errorBodyD m d)

/-- Response shape produced by the V2 handler: as V1 plus the fetch-error
body carrying the extra `url` field. -/
def respShapeV2 (modelO : Except JsError (List Char))
    (r : HandlerResponse) : Prop :=
  respShapeV1 modelO r ∨ (∃ d u, r.body = fetchErrBodyV2 d u)

/-- Concrete document used to witness the JSON-LD claims: a malformed
structured-data block followed by a JobPosting block, with every
lower-priority strategy also available. -/
def goodLdScript : List Char :=
  "\x7b\"@type\":\"JobPosting\",\"description\":\" Great Dev Role \"\x7d".data

/-- Concrete document for the C5 witness. -/
def docC5 : Doc :=
  { ldScripts := ["oops".data, goodLdScript],
    ogDescription := some "meta text".data,
    selector := fun _ => some "selector text".data,
    bodyText := "body text".data }

/-- Concrete document whose extraction is empty: no structured data, no meta
tag, no selector match, whitespace-only body. -/
def docEmpty : Doc :=
  { ldScripts := [], ogDescription := none,
    selector := fun _ => none, bodyText := "  ".data }

/-- Concrete document for the C6 witness: only a selector matches. -/
def docC6 : Doc :=
  { ldScripts := ["\x7b\"@type\":\"Product\"\x7d".data], ogDescription := some [],
    selector := fun s => if s = ".description".data then some " From selector ".data else none,
    bodyText := "fallback body".data }

/-- Model response text of the degradation example cited by the spec. -/
def exRawC2 : List Char :=
  "Here is the data: \x7b\"job_title\": \"X\"\x7d extra trailing text".data

/-- The greedy brace-regex match of `exRawC2`. -/
def exMatchC2 : List Char := "\x7b\"job_title\": \"X\"\x7d".data

/-- Counterexample input for C2: prose containing two separate brace
groups. -/
def cexC2 : List Char := "x\x7b\"a\": 1\x7dy\x7b\"b\": 2\x7dz".data

/-- Normal POST event with a url body, used in several witnesses. -/
def evPost : HEvent :=
  { httpMethod := postMethod, body := "\x7b\"url\":\"http://x\"\x7d".data }

/-- The url value carried by `evPost`. -/
def urlValX : Json := Json.str "http://x".data

/-- Whether a body value is a FallbackResult or any object at all is settled
by the executable predicates above; helper lemma: a hit of the JSON-LD loop
is always truthy. -/
theorem ldScriptHit_truthy (s : List Char) (v : Json)
    (h : ldScriptHit s = some v) : jsTruthy v = true := by
  unfold ldScriptHit at h
  repeat' split at h
  all_goals simp_all

/-- Helper lemma: every value returned by the JSON-LD loop is truthy. -/
theorem ldFind_truthy (l : List (List Char)) (v : Json)
    (h : ldFind l = some v) : jsTruthy v = true := by
  induction l with
  | nil => simp [ldFind] at h
  | cons s rest ih =>
    rw [ldFind] at h
    split at h
    · exact ldScriptHit_truthy s v (by simp_all)
    · exact ih h

/-- Helper lemma: a successful V1 analysis comes from a successful model call
and is the pure normalisation of its response text. -/
theorem analyzeJobSkillsV1_ok (m : Except JsError (List Char)) (s : Json)
    (h : analyzeJobSkillsV1 m = Except.ok s) :
    ∃ raw, m = Except.ok raw ∧ s = analyzeJobSkillsPure raw := by
  cases m with
  | ok raw =>
    refine ⟨raw, rfl, ?_⟩
    simp [analyzeJobSkillsV1] at h
    exact h.symm
  | error e => simp [analyzeJobSkillsV1] at h

/-- Helper lemma: same as `analyzeJobSkillsV1_ok` for the V2 analysis. -/
theorem analyzeJobSkillsV2_ok (m : Except JsError (List Char)) (s : Json)
    (h : analyzeJobSkillsV2 m = Except.ok s) :
    ∃ raw, m = Except.ok raw ∧ s = analyzeJobSkillsPure raw := by
  cases m with
  | ok raw =>
    refine ⟨raw, rfl, ?_⟩
    simp [analyzeJobSkillsV2] at h
    exact h.symm
  | error e => simp [analyzeJobSkillsV2] at h

/-- Helper lemma: the V1 handler always answers with a response of the V1
shape. -/
theorem respShapeV1_all (e : HEvent) (f : Except JsError Doc)
    (m : Except JsError (List Char)) :
    respShapeV1 m (handlerV1 e f m).1 := by
  unfold handlerV1 respShapeV1
  split
  · exact Or.inr (Or.inl ⟨_, rfl⟩)
  · split
    · exact Or.inr (Or.inr ⟨_, _, rfl⟩)
    · split
      · exact Or.inr (Or.inl ⟨_, rfl⟩)
      · split
        · exact Or.inr (Or.inl ⟨_, rfl⟩)
        · split
          · exact Or.inr (Or.inr ⟨_, _, rfl⟩)
          · split
            · exact Or.inr (Or.inl ⟨_, rfl⟩)
            · split
              · exact Or.inr (Or.inr ⟨_, _, rfl⟩)
              · rename_i skills hok
                obtain ⟨raw, hm, hs⟩ := analyzeJobSkillsV1_ok m skills hok
                exact Or.inl ⟨raw, hm, by rw [hs]⟩

/-- Helper lemma: the V2 handler always answers with a response of the V2
shape. -/
theorem respShapeV2_all (e : HEvent) (f : Except JsError Doc)
    (m : Except JsError (List Char)) :
    respShapeV2 m (handlerV2 e f m).1 := by
  unfold handlerV2 respShapeV2 respShapeV1
  split
  · exact Or.inl (Or.inr (Or.inl ⟨_, rfl⟩))
  · split
    · exact Or.inl (Or.inr (Or.inr ⟨_, _, rfl⟩))
    · split
      · exact Or.inl (Or.inr (Or.inl ⟨_, rfl⟩))
      · split
        · exact Or.inl (Or.inr (Or.inl ⟨_, rfl⟩))
        · split
          · exact Or.inr ⟨_, _, rfl⟩
          · split
            · exact Or.inl (Or.inr (Or.inl ⟨_, rfl⟩))
            · split
              · exact Or.inr ⟨_, _, rfl⟩
              · rename_i skills hok
                obtain ⟨raw, hm, hs⟩ := analyzeJobSkillsV2_ok m skills hok
                exact Or.inl (Or.inl ⟨raw, hm, by rw [hs]⟩)

/-- Helper lemma: the normaliser output is always the direct parse of the
trimmed content, or the parse of the greedy brace-regex match, or the
FallbackResult on the trimmed content. -/
theorem normalizeTrichotomy (raw : List Char) :
    jsonParse (trimChars raw) = some (analyzeJobSkillsPure raw) ∨
    (∃ mt, greedyBraceMatch (trimChars raw) = some mt ∧
      jsonParse mt = some (analyzeJobSkillsPure raw)) ∨
    analyzeJobSkillsPure raw = rawOutputObj (trimChars raw) := by
  unfold analyzeJobSkillsPure normalizeContent
  split
  · rename_i v hv
    exact Or.inl hv
  · split
    · rename_i hv mt hmt
      split
      · rename_i w hw
        exact Or.inr (Or.inl ⟨mt, hmt, hw⟩)
      · exact Or.inr (Or.inr rfl)
    · exact Or.inr (Or.inr rfl)

/-- C1: the claim states that every pipeline run produces exactly one of a
StructuredSkills-shaped object or a FallbackResult and that every response is
an error object with no fields besides `error` and `details` (or one of the
two result shapes).  Both parts fail on the code: a model response that is
valid JSON but not an object (here `[1, 2]`) is returned as-is, which is
neither a StructuredSkills-shaped object (under even the weakest reading:
any object) nor a FallbackResult; and the V2 fetch-error response body
carries a third `url` field. -/
theorem C1_counterexample :
    specStructuredSkillsShaped (analyzeJobSkillsPure "[1, 2]".data) = false ∧
    isFallbackResult (analyzeJobSkillsPure "[1, 2]".data) = false ∧
    objKeys (handlerV2 evPost (Except.error ⟨"boom".data⟩)
      (Except.ok [])).1.body = [errorKey, detailsKey, urlKey] := by
  refine ⟨by decide, by decide, by decide⟩

/-- C1 (amended): no exception escapes either handler revision and every
response is well formed: either a 200 whose body is the normaliser output of
the model response — which is always the directly-parsed JSON value (any JSON
value, not necessarily an object), the parsed greedy brace-regex match, or
the FallbackResult — or an error body with only an `error` field, or `error`
plus `details`, or (V2 fetch/analyze errors only) `error`, `details` and
`url`. -/
theorem C1_amended :
    (∀ e f m, respShapeV1 m (handlerV1 e f m).1) ∧
    (∀ e f m, respShapeV2 m (handlerV2 e f m).1) ∧
    (∀ raw, jsonParse (trimChars raw) = some (analyzeJobSkillsPure raw) ∨
      (∃ mt, greedyBraceMatch (trimChars raw) = some mt ∧
        jsonParse mt = some (analyzeJobSkillsPure raw)) ∨
      analyzeJobSkillsPure raw = rawOutputObj (trimChars raw)) :=
  ⟨respShapeV1_all, respShapeV2_all, normalizeTrichotomy⟩

/-- C2: the claim states that when the direct parse fails the Normalizer
extracts the *first top-level* brace-delimited substring.  The regex used by the code
is greedy: it takes the span from the first opening brace to the last closing
brace of the whole text.  On `x\x7b"a": 1\x7dy\x7b"b": 2\x7dz` the first top-level
brace-delimited substring is `\x7b"a": 1\x7d`, which parses to an object, so the
claim predicts that object; the code instead tries the unparseable greedy
span and falls back to the FallbackResult. -/
theorem C2_counterexample :
    specFirstBraceSubstring cexC2 = some "\x7b\"a\": 1\x7d".data ∧
    jsonParse "\x7b\"a\": 1\x7d".data =
      some (Json.obj (JsonObj.cons "a".data (Json.num 1) JsonObj.nil)) ∧
    analyzeJobSkillsPure cexC2 = rawOutputObj cexC2 ∧
    analyzeJobSkillsPure cexC2 ≠
      Json.obj (JsonObj.cons "a".data (Json.num 1) JsonObj.nil) := by
  refine ⟨by decide, by decide, by decide, by decide⟩

/-- C2 (amended): for every model response text whose direct JSON parse
fails and in which some opening brace is followed by a later closing brace,
the Normalizer attempts to parse the greedy brace span — from the first
opening brace to the last closing brace of the trimmed text — returning the
parsed value on success and the FallbackResult otherwise; in particular on
the example of the spec it yields the `job_title: X` object (see the witness). -/
theorem C2_amended (raw mt : List Char)
    (h1 : jsonParse (trimChars raw) = none)
    (h2 : greedyBraceMatch (trimChars raw) = some mt) :
    analyzeJobSkillsPure raw =
      (match jsonParse mt with
       | some v => v
       | none => rawOutputObj (trimChars raw)) := by
  unfold analyzeJobSkillsPure normalizeContent
  rw [h1, h2]

/-- C2 witness: the degradation example of the spec, evaluated through the
amended theorem. -/
theorem C2_witness :
    analyzeJobSkillsPure exRawC2 =
      Json.obj (JsonObj.cons "job_title".data (Json.str "X".data)
        JsonObj.nil) := by
  have h := C2_amended exRawC2 exMatchC2 (by decide) (by decide)
  rw [h]
  decide

/-- C3: a model response that directly parses as a JSON object is returned
by the Normalizer as exactly that object — deep-equal, no fields added, no
fields dropped (the code returns the parse result untouched). -/
theorem C3_roundtrip (raw : List Char) (v : Json)
    (h1 : jsonParse (trimChars raw) = some v) (_h2 : v.isObjB = true) :
    analyzeJobSkillsPure raw = v := by
  unfold analyzeJobSkillsPure normalizeContent
  rw [h1]

/-- C3 witness: a clean JSON object round-trips unchanged. -/
theorem C3_witness :
    analyzeJobSkillsPure " \x7b\"job_title\": \"Senior Engineer\"\x7d ".data =
      Json.obj (JsonObj.cons "job_title".data
        (Json.str "Senior Engineer".data) JsonObj.nil) :=
  C3_roundtrip _ _ (by decide) (by decide)

/-- C4: the claim states that the FallbackResult carries the full response
text *exactly as received*; the code trims the response first, so a response
with surrounding whitespace comes back trimmed. -/
theorem C4_counterexample :
    analyzeJobSkillsPure " hi ".data = rawOutputObj "hi".data ∧
    rawOutputObj "hi".data ≠ rawOutputObj " hi ".data := by
  refine ⟨by decide, by decide⟩

/-- C4 (amended): for every model response whose trimmed text is not
parseable as JSON and contains no brace-delimited substring (no opening
brace followed by a later closing brace, i.e. the brace regex does not
match), the Normalizer returns the FallbackResult carrying the *trimmed*
response text, as a success value, never an error. -/
theorem C4_amended (raw : List Char)
    (h1 : jsonParse (trimChars raw) = none)
    (h2 : greedyBraceMatch (trimChars raw) = none) :
    analyzeJobSkillsPure raw = rawOutputObj (trimChars raw) := by
  unfold analyzeJobSkillsPure normalizeContent
  rw [h1, h2]

/-- C4 witness: non-JSON prose without braces degrades to the
FallbackResult. -/
theorem C4_witness :
    analyzeJobSkillsPure " no json here at all ".data =
      rawOutputObj "no json here at all".data := by
  have h := C4_amended " no json here at all ".data (by decide) (by decide)
  rw [h]
  decide

/-- C5: for every document whose JSON-LD loop yields a string description —
the first `application/ld+json` block typed `JobPosting` with a truthy
description, malformed blocks before it being caught and skipped without
aborting the chain — the Extractor returns exactly that description text,
trimmed, with the meta-tag, selector and body strategies never consulted;
and a block that fails to parse is skipped, leaving the loop result that of
the remaining blocks. -/
theorem C5_jsonld :
    (∀ (doc : Doc) (d : List Char),
      ldFind doc.ldScripts = some (Json.str d) →
      extractFromDoc doc = Except.ok (trimChars d)) ∧
    (∀ (bad : List Char) (rest : List (List Char)),
      jsonParse bad = none → ldFind (bad :: rest) = ldFind rest) := by
  constructor
  · intro doc d h
    unfold extractFromDoc
    rw [h]
  · intro bad rest h
    rw [ldFind]
    have hb : ldScriptHit bad = none := by
      unfold ldScriptHit
      rw [h]
    rw [hb]

/-- C5 witness: a malformed block followed by a JobPosting block, with every
lower-priority strategy present; strategy 1 wins and the malformed block is
skipped. -/
theorem C5_witness :
    extractFromDoc docC5 = Except.ok "Great Dev Role".data ∧
    ldFind ["oops".data, goodLdScript] = ldFind [goodLdScript] := by
  constructor
  · have h := C5_jsonld.1 docC5 " Great Dev Role ".data (by decide)
    rw [h]
    rfl
  · exact C5_jsonld.2 "oops".data [goodLdScript] (by decide)

/-- C6: on every successfully fetched document (whose JSON-LD description,
when present, is a string — the only case in which the chain completes), the
Extractor result equals the ordered short-circuiting chain of the spec:
JSON-LD, then the `og:description` meta tag, then the first matching CSS
selector from the fixed list, then the body text, each strategy consulted
only when the previous produced no text, with the final output trimmed. -/
theorem C6_chain (doc : Doc)
    (h : ∀ v, ldFind doc.ldScripts = some v → ∃ s, v = Json.str s) :
    extractFromDoc doc = Except.ok (trimChars (specOrderedChain doc)) := by
  cases hld : ldFind doc.ldScripts with
  | some v =>
    obtain ⟨s, rfl⟩ := h v hld
    have hs : s.isEmpty = false := by
      have ht := ldFind_truthy doc.ldScripts (Json.str s) hld
      simpa [jsTruthy] using ht
    simp [extractFromDoc, specOrderedChain, specStratLd,
      specFirstNonEmptyText, hld, hs]
  | none =>
    cases hog : doc.ogDescription with
    | some m =>
      cases m with
      | cons c cs =>
        simp [extractFromDoc, specOrderedChain, specStratLd, specStratMeta,
          specFirstNonEmptyText, hld, hog]
      | nil =>
        cases hsel : selScan doc with
        | some t =>
          cases t with
          | cons c cs =>
            simp [extractFromDoc, specOrderedChain, specStratLd, specStratMeta,
              specStratSel, specFirstNonEmptyText, hld, hog, hsel]
          | nil =>
            cases hb : doc.bodyText with
            | cons c cs =>
              simp [extractFromDoc, specOrderedChain, specStratLd,
                specStratMeta, specStratSel, specFirstNonEmptyText,
                hld, hog, hsel, hb]
            | nil =>
              simp [extractFromDoc, specOrderedChain, specStratLd,
                specStratMeta, specStratSel, specFirstNonEmptyText,
                hld, hog, hsel, hb]
        | none =>
          cases hb : doc.bodyText with
          | cons c cs =>
            simp [extractFromDoc, specOrderedChain, specStratLd,
              specStratMeta, specStratSel, specFirstNonEmptyText,
              hld, hog, hsel, hb]
          | nil =>
            simp [extractFromDoc, specOrderedChain, specStratLd,
              specStratMeta, specStratSel, specFirstNonEmptyText,
              hld, hog, hsel, hb]
    | none =>
      cases hsel : selScan doc with
      | some t =>
        cases t with
        | cons c cs =>
          simp [extractFromDoc, specOrderedChain, specStratLd, specStratMeta,
            specStratSel, specFirstNonEmptyText, hld, hog, hsel]
        | nil =>
          cases hb : doc.bodyText with
          | cons c cs =>
            simp [extractFromDoc, specOrderedChain, specStratLd, specStratMeta,
              specStratSel, specFirstNonEmptyText, hld, hog, hsel, hb]
          | nil =>
            simp [extractFromDoc, specOrderedChain, specStratLd, specStratMeta,
              specStratSel, specFirstNonEmptyText, hld, hog, hsel, hb]
      | none =>
        cases hb : doc.bodyText with
        | cons c cs =>
          simp [extractFromDoc, specOrderedChain, specStratLd, specStratMeta,
            specStratSel, specFirstNonEmptyText, hld, hog, hsel, hb]
        | nil =>
          simp [extractFromDoc, specOrderedChain, specStratLd, specStratMeta,
            specStratSel, specFirstNonEmptyText, hld, hog, hsel, hb]

/-- C6 witness: a document whose only productive strategy is the third
(selector) one, evaluated through the chain theorem. -/
theorem C6_witness :
    extractFromDoc docC6 = Except.ok "From selector".data := by
  have hn : ldFind docC6.ldScripts = none := by decide
  have h := C6_chain docC6 (by intro v hv; rw [hn] at hv; simp at hv)
  rw [h]
  rfl

/-- C7: for every POST request with a truthy url whose fetch succeeds but
whose extraction chain yields the empty string, both handler revisions
short-circuit: they return the 400 `Could not extract job description from
the provided URL` response — distinct from a fetch success — and the trace
of outbound calls contains the fetch only, never a model call. -/
theorem C7_emptyExtraction (e : HEvent) (doc : Doc)
    (modelO : Except JsError (List Char)) (u : Json)
    (h1 : e.httpMethod = postMethod)
    (h2 : readUrl e.body = Except.ok (some u))
    (h3 : jsTruthy u = true)
    (h4 : extractFromDoc doc = Except.ok []) :
    handlerV1 e (Except.ok doc) modelO =
      (⟨400, errorBody couldNotExtractMsg⟩, [ExtCall.fetch u]) ∧
    handlerV2 e (Except.ok doc) modelO =
      (⟨400, errorBody couldNotExtractMsg⟩, [ExtCall.fetch u]) ∧
    (∀ d, ExtCall.model d ∉ (handlerV1 e (Except.ok doc) modelO).2) := by
  have hv1 : fetchJobDescriptionV1 (Except.ok doc) = Except.ok [] := by
    simp [fetchJobDescriptionV1, h4]
  have hv2 : fetchJobDescriptionV2 (Except.ok doc) = Except.ok [] := by
    simp [fetchJobDescriptionV2, h4]
  have g1 : handlerV1 e (Except.ok doc) modelO =
      (⟨400, errorBody couldNotExtractMsg⟩, [ExtCall.fetch u]) := by
    simp [handlerV1, h1, h2, hv1, jsTruthyOpt, h3]
  have g2 : handlerV2 e (Except.ok doc) modelO =
      (⟨400, errorBody couldNotExtractMsg⟩, [ExtCall.fetch u]) := by
    simp [handlerV2, h1, h2, hv2, jsTruthyOpt, h3]
  refine ⟨g1, g2, ?_⟩
  intro d
  rw [g1]
  simp

/-- C7 witness: a whitespace-only document behind a well-formed POST. -/
theorem C7_witness :
    handlerV1 evPost (Except.ok docEmpty) (Except.ok "ignored".data) =
      (⟨400, errorBody couldNotExtractMsg⟩, [ExtCall.fetch urlValX]) :=
  (C7_emptyExtraction evPost docEmpty (Except.ok "ignored".data) urlValX
    (by decide) (by decide) (by decide) (by decide)).1

/-- C8: the claim states that *every* extraction request performs its GET
under a bounded timeout.  Only the later revision does: the earlier
revision has an axios request configuration that carries no timeout field at all
(the library default is no timeout), so its GET is not bounded. -/
theorem C8_counterexample :
    axiosConfigV1.timeout = none ∧
    ¬ (axiosConfigV1.timeout ≠ none ∧ axiosConfigV2.timeout ≠ none) := by
  refine ⟨rfl, ?_⟩
  intro h
  exact h.1 rfl

/-- C8 (amended): the outbound GET of the later revision is configured with a
bounded 10000 ms (10 second) timeout; the earlier revision configures none.
Whether a timed-out request actually raises within the bound is a real-time
library property outside the model. -/
theorem C8_amended : axiosConfigV2.timeout = some 10000 := rfl

/-- C9: for every incoming request whose HTTP method is not POST, both
handler revisions return the 405 `Method not allowed` error body and perform
no outbound call at all (empty call trace), regardless of what the network
would have answered. -/
theorem C9_methodNotAllowed (e : HEvent) (f : Except JsError Doc)
    (m : Except JsError (List Char)) (h : e.httpMethod ≠ postMethod) :
    handlerV1 e f m = (⟨405, errorBody methodNotAllowedMsg⟩, []) ∧
    handlerV2 e f m = (⟨405, errorBody methodNotAllowedMsg⟩, []) := by
  constructor
  · simp [handlerV1, h]
  · simp [handlerV2, h]

/-- C9 witness: a GET request is rejected with 405 and no outbound calls. -/
theorem C9_witness :
    handlerV1 ⟨"GET".data, "\x7b\"url\":\"http://x\"\x7d".data⟩
        (Except.error ⟨[]⟩) (Except.error ⟨[]⟩) =
      (⟨405, errorBody methodNotAllowedMsg⟩, []) :=
  (C9_methodNotAllowed ⟨"GET".data, "\x7b\"url\":\"http://x\"\x7d".data⟩
    (Except.error ⟨[]⟩) (Except.error ⟨[]⟩) (by decide)).1

/-- C10: the claim states every POST whose JSON body lacks a truthy url gets
the 400 `URL is required` response.  A body of `null` is valid JSON lacking
a truthy url field, yet destructuring `url` out of `null` throws, the outer
catch answers 500 `Failed to analyze job posting` — not 400 — in both
revisions. -/
theorem C10_counterexample :
    handlerV1 ⟨postMethod, "null".data⟩ (Except.error ⟨[]⟩)
        (Except.error ⟨[]⟩) =
      (⟨500, errorBodyD failedAnalyzeMsg destructureErrorMsg⟩, []) ∧
    handlerV2 ⟨postMethod, "null".data⟩ (Except.error ⟨[]⟩)
        (Except.error ⟨[]⟩) =
      (⟨500, errorBodyD failedAnalyzeMsg destructureErrorMsg⟩, []) ∧
    (⟨500, errorBodyD failedAnalyzeMsg destructureErrorMsg⟩ :
      HandlerResponse) ≠ ⟨400, errorBody urlRequiredMsg⟩ := by
  refine ⟨by decide, by decide, by decide⟩

/-- C10 (amended): for every POST request whose body parses as JSON to a
value other than `null` and lacking a truthy url field, both handler
revisions return the 400 `URL is required` response with no outbound fetch
and no model call (empty call trace). -/
theorem C10_urlRequired (e : HEvent) (f : Except JsError Doc)
    (m : Except JsError (List Char)) (uo : Option Json)
    (h1 : e.httpMethod = postMethod)
    (h2 : readUrl e.body = Except.ok uo)
    (h3 : jsTruthyOpt uo = false) :
    handlerV1 e f m = (⟨400, errorBody urlRequiredMsg⟩, []) ∧
    handlerV2 e f m = (⟨400, errorBody urlRequiredMsg⟩, []) := by
  constructor
  · simp [handlerV1, h1, h2, h3]
  · simp [handlerV2, h1, h2, h3]

/-- C10 witness: an empty-object body yields the 400 with no outbound
calls. -/
theorem C10_witness :
    handlerV1 ⟨postMethod, "\x7b\x7d".data⟩ (Except.error ⟨[]⟩)
        (Except.error ⟨[]⟩) =
      (⟨400, errorBody urlRequiredMsg⟩, []) :=
  (C10_urlRequired ⟨postMethod, "\x7b\x7d".data⟩ (Except.error ⟨[]⟩)
    (Except.error ⟨[]⟩) none (by decide) (by decide) (by decide)).1
